import Mathlib

/-!
Verification development for an MP4 (ISO-BMFF) box parser and video-stream
extractor written in Go.  The repository holds two near-duplicate programs;
where they differ, the variant containing the extraction entry point
(`extractVideoChunks`) is embedded, and the differences are noted.

Modelling conventions:
- The random-access byte source (`io.ReaderAt`) is modelled as a total
  function `Int → Nat` from absolute offsets to byte values; read errors and
  end-of-file are out of scope (the Go code itself does not recover from
  them).  Concrete sources used below always produce values below 256.
- Go `int64` offsets and sizes become `Int`; `uint32` values read from the
  stream become `Nat` computed big-endian from the four bytes.
- The Go scan loop `readBoxes` can fail to terminate (a header whose size
  field is 0 never advances the offset), so it is embedded with an explicit
  fuel parameter; `none` means the loop has not finished within the given
  fuel.
- Go 4-character tags (`string(buf[4:8])`) are kept as the list of their four
  byte values, so tag equality coincides with Go string equality.
-/

/-- Big-endian 32-bit value of four bytes, as in `binary.BigEndian.Uint32`. -/
def be32 (a b c d : Nat) : Nat := ((a * 256 + b) * 256 + c) * 256 + d

/-- Read a big-endian `uint32` at an absolute offset of the byte source. -/
def readU32 (src : Int → Nat) (off : Int) : Nat :=
  be32 (src off) (src (off + 1)) (src (off + 2)) (src (off + 3))

/-- Read a 4-byte tag at an absolute offset (Go `string(buf[4:8])`). -/
def readTag (src : Int → Nat) (off : Int) : List Nat :=
  [src off, src (off + 1), src (off + 2), src (off + 3)]

/-- Embedding of the Go `Box` struct: `Name` (as raw tag bytes), `Size` and
`Start` (both `int64`).  The `Reader` back-pointer is passed explicitly as the
`src` argument of each function instead. -/
structure Box where
  name : List Nat
  size : Int
  start : Int
  deriving DecidableEq

/-- Embedding of the loop body of Go `readBoxes(m, start, n)`:
`for offset := start; offset < start+n; { size, name := m.ReadBoxAt(offset);
append Box{name, int64(size), offset}; offset += int64(size) }`.
`stop` is `start + n`; the extra fuel argument bounds the number of
iterations, `none` meaning the Go loop has not terminated within that bound
(which happens exactly when it never terminates, since the loop body is
deterministic and fuel is arbitrary). -/
def readBoxesLoop (src : Int → Nat) (stop : Int) : Nat → Int → Option (List Box)
  | 0, _ => none
  | fuel + 1, offset =>
    if offset < stop then
      let sz : Int := Int.ofNat (readU32 src offset)
      match readBoxesLoop src stop fuel (offset + sz) with
      | none => none
      | some l => some (⟨readTag src (offset + 4), sz, offset⟩ :: l)
    else some []

/-- Embedding of Go `readBoxes(m, start, n)`. -/
def readBoxes (src : Int → Nat) (start n : Int) (fuel : Nat) : Option (List Box) :=
  readBoxesLoop src (start + n) fuel start

/-- A byte source backed by a finite list of bytes; offsets outside the list
read as 0 (used only to build concrete test sources). -/
def byteAt (l : List Nat) : Int → Nat := fun i =>
  if i < 0 then 0 else l.getD i.toNat 0

/-- The contiguity predicate: the first box starts at `a` and every following
box starts where the previous one ends (`start + size`). -/
def chainFrom : Int → List Box → Prop
  | _, [] => True
  | a, b :: l => b.start = a ∧ chainFrom (a + b.size) l

theorem readBoxesLoop_chain (src : Int → Nat) (stop : Int) :
    ∀ (fuel : Nat) (off : Int) (l : List Box),
      readBoxesLoop src stop fuel off = some l → chainFrom off l := by
  intro fuel
  induction fuel with
  | zero => intro off l h; simp [readBoxesLoop] at h
  | succ fuel ih =>
    intro off l h
    simp only [readBoxesLoop] at h
    by_cases hlt : off < stop
    · rw [if_pos hlt] at h
      cases hr : readBoxesLoop src stop fuel (off + Int.ofNat (readU32 src off)) with
      | none => rw [hr] at h; exact absurd h (by simp)
      | some l' =>
        rw [hr] at h
        cases h
        exact ⟨rfl, ih _ _ hr⟩
    · rw [if_neg hlt] at h
      cases h
      trivial

/-- C9: every list of boxes returned by `readBoxes(m, start, n)` starts at
`start`, and each subsequent box starts at the previous box's `Start` plus its
`Size`: the returned headers are contiguous, with no gaps or overlaps between
consecutive entries. -/
theorem readBoxes_contiguous (src : Int → Nat) (start n : Int) (fuel : Nat)
    (l : List Box) (h : readBoxes src start n fuel = some l) :
    chainFrom start l :=
  readBoxesLoop_chain src (start + n) fuel start l h

/-- Witness for C9 at a concrete input: a 24-byte range holding an 8-byte
`free` box followed by a 16-byte `skip` box scans to two contiguous headers. -/
theorem readBoxes_contiguous_witness :
    chainFrom 0 [⟨[102, 114, 101, 101], 8, 0⟩, ⟨[115, 107, 105, 112], 16, 8⟩] :=
  readBoxes_contiguous
    (byteAt [0, 0, 0, 8, 102, 114, 101, 101,
             0, 0, 0, 16, 115, 107, 105, 112,
             0, 0, 0, 0, 0, 0, 0, 0])
    0 24 5 _ (by decide)

theorem readBoxesLoop_congr (src1 src2 : Int → Nat) (stop lo : Int)
    (h : ∀ i : Int, lo ≤ i → src1 i = src2 i) :
    ∀ (fuel : Nat) (off : Int), lo ≤ off →
      readBoxesLoop src1 stop fuel off = readBoxesLoop src2 stop fuel off := by
  intro fuel
  induction fuel with
  | zero => intro off _; rfl
  | succ fuel ih =>
    intro off hoff
    have hsz : readU32 src1 off = readU32 src2 off := by
      simp only [readU32]
      rw [h off hoff, h (off + 1) (by omega), h (off + 2) (by omega),
        h (off + 3) (by omega)]
    have htag : readTag src1 (off + 4) = readTag src2 (off + 4) := by
      simp only [readTag]
      rw [h (off + 4) (by omega), h (off + 4 + 1) (by omega),
        h (off + 4 + 2) (by omega), h (off + 4 + 3) (by omega)]
    have hrec := ih (off + Int.ofNat (readU32 src1 off)) (by
      have hnn : (0 : Int) ≤ Int.ofNat (readU32 src1 off) := Int.ofNat_nonneg _
      omega)
    simp only [readBoxesLoop]
    rw [hsz, htag]
    rw [hsz] at hrec
    rw [hrec]

/-- C8: the scan of a byte range is a deterministic function of the source
bytes (from `start` onward) and the `start`/`n` arguments alone: two sources
agreeing on every byte at offset `start` or beyond — in particular the same
immutable source scanned twice — give identical ordered box sequences, with
no dependence on shared iterator state. -/
theorem readBoxes_deterministic (src1 src2 : Int → Nat) (start n : Int)
    (fuel : Nat) (h : ∀ i : Int, start ≤ i → src1 i = src2 i) :
    readBoxes src1 start n fuel = readBoxes src2 start n fuel :=
  readBoxesLoop_congr src1 src2 (start + n) start h fuel start le_rfl

/-- Witness for C8 at a concrete input: two sources that differ below offset 0
but agree from 0 on scan a 16-byte range identically. -/
theorem readBoxes_deterministic_witness :
    readBoxes (fun i => if i < 0 then 7 else byteAt [0, 0, 0, 16, 109, 100, 97, 116] i)
        0 16 5 =
      readBoxes (fun i => if i < 0 then 9 else byteAt [0, 0, 0, 16, 109, 100, 97, 116] i)
        0 16 5 :=
  readBoxes_deterministic _ _ 0 16 5
    (by
      intro i hi
      have : ¬ i < 0 := not_lt.mpr hi
      simp [this])

/-- Tag constants: byte values of the Go 4-character tag strings. -/
def tagMoov : List Nat := [109, 111, 111, 118]

def tagTrak : List Nat := [116, 114, 97, 107]

def tagMdia : List Nat := [109, 100, 105, 97]

def tagHdlr : List Nat := [104, 100, 108, 114]

def tagMinf : List Nat := [109, 105, 110, 102]

def tagStbl : List Nat := [115, 116, 98, 108]

def tagMvhd : List Nat := [109, 118, 104, 100]

def tagStsz : List Nat := [115, 116, 115, 122]

def tagStsc : List Nat := [115, 116, 115, 99]

def tagStco : List Nat := [115, 116, 99, 111]

def tagVide : List Nat := [118, 105, 100, 101]

/-- Embedding of Go `Mp4Reader.ReadBytesAt(n, offset)`: a buffer of `n` bytes
read at `offset` of the source. -/
def ReadBytesAt (src : Int → Nat) (n off : Int) : List Nat :=
  (List.range n.toNat).map (fun i => src (off + (i : Int)))

/-- Embedding of Go `Box.ReadBoxData()`:
`if b.Size <= BoxHeaderSize { return nil }` and otherwise
`b.Reader.ReadBytesAt(b.Size-BoxHeaderSize, b.Start+BoxHeaderSize)`.
The Go `nil` slice is modelled as `none`, a real buffer as `some`. -/
def ReadBoxData (src : Int → Nat) (b : Box) : Option (List Nat) :=
  if b.size ≤ 8 then none
  else some (ReadBytesAt src (b.size - 8) (b.start + 8))

/-- C10: for every box whose declared `Size` is at most the 8-byte header
size, `ReadBoxData` returns `nil` (not an empty slice), and the result does
not depend on the byte source at all — no read is performed. -/
theorem readBoxData_small_none (src1 src2 : Int → Nat) (b : Box)
    (h : b.size ≤ 8) :
    ReadBoxData src1 b = none ∧
      ReadBoxData src1 b = ReadBoxData src2 b ∧
      ReadBoxData src1 b ≠ some [] := by
  simp [ReadBoxData, h]

/-- Witness for C10: a `free` box of size exactly 8 (empty payload) yields
`nil` under two different sources. -/
theorem readBoxData_small_none_witness :
    ReadBoxData (fun _ => 0) ⟨[102, 114, 101, 101], 8, 0⟩ = none ∧
      ReadBoxData (fun _ => 0) ⟨[102, 114, 101, 101], 8, 0⟩ =
        ReadBoxData (fun _ => 1) ⟨[102, 114, 101, 101], 8, 0⟩ ∧
      ReadBoxData (fun _ => 0) ⟨[102, 114, 101, 101], 8, 0⟩ ≠ some [] :=
  readBoxData_small_none (fun _ => 0) (fun _ => 1) ⟨[102, 114, 101, 101], 8, 0⟩
    (by decide)

/-- Inside the scan range, a header whose size field reads as 0 leaves the
offset unchanged, so the Go loop `offset += int64(size)` never terminates:
for every fuel bound the fueled embedding is still unfinished. -/
theorem readBoxesLoop_stuck_on_zero (src : Int → Nat) (stop off : Int)
    (h0 : readU32 src off = 0) (hlt : off < stop) :
    ∀ fuel : Nat, readBoxesLoop src stop fuel off = none := by
  intro fuel
  induction fuel with
  | zero => rfl
  | succ fuel ih =>
    simp only [readBoxesLoop, if_pos hlt, h0]
    have hz : off + Int.ofNat 0 = off := by simp
    rw [hz, ih]

/-- C3 (code evaluation): the scanner performs no size validation.  On a
16-byte range whose first header declares size 4 (tag `ftyp`), the Go loop
terminates normally and returns two overlapping headers — the second "box" is
read from inside the first one's header and declares the garbage size
0x66747970 — with no `MalformedContainer` failure (no such error exists in
the code). -/
theorem scanner_accepts_size_four_eval :
    readBoxes
        (byteAt [0, 0, 0, 4, 102, 116, 121, 112,
                 0, 0, 0, 8, 109, 111, 111, 118])
        0 16 10 =
      some [⟨[102, 116, 121, 112], 4, 0⟩, ⟨[0, 0, 0, 8], 1718909296, 4⟩] := by
  decide

/-- C4 (code evaluation): neither special size form is implemented.  A header
with size field 0 makes the scan loop forever (for every fuel bound it is
unfinished) instead of extending the box to the end of the range; a header
with size field 1 is taken as a literal 1-byte box — the next header is read
at offset 1 and the 8 bytes following the header (here the 64-bit extended
size 16) are never consulted. -/
theorem scanner_size_zero_one_eval :
    (∀ fuel : Nat,
        readBoxesLoop
          (byteAt [0, 0, 0, 0, 109, 100, 97, 116,
                   0, 0, 0, 0, 0, 0, 0, 0])
          16 fuel 0 = none) ∧
      readBoxes
          (byteAt [0, 0, 0, 1, 109, 100, 97, 116,
                   0, 0, 0, 16, 0, 0, 0, 0])
          0 16 10 =
        some [⟨[109, 100, 97, 116], 1, 0⟩, ⟨[100, 97, 116, 0], 365, 1⟩] :=
  ⟨fun fuel =>
    readBoxesLoop_stuck_on_zero _ 16 0 (by decide) (by decide) fuel,
    by decide⟩

/-- A byte of a box's payload: Go `data := b.ReadBoxData()` places payload
index `i` at absolute offset `b.Start + 8 + i`. -/
def payload (src : Int → Nat) (b : Box) (i : Int) : Nat :=
  src (b.start + 8 + i)

/-- Embedding of Go `fixed16(bytes []byte) Fixed16`:
`Fixed16(binary.BigEndian.Uint16(bytes))` — the raw 16 bits of the first two
bytes of the slice it is given (`Uint16` only ever reads `bytes[0]` and
`bytes[1]`). -/
def fixed16 (b0 b1 : Nat) : Nat := b0 * 256 + b1

/-- Embedding of Go `fixed32(bytes []byte) Fixed32`:
`Fixed32(binary.BigEndian.Uint32(bytes))` — the raw 32 bits. -/
def fixed32 (b0 b1 b2 b3 : Nat) : Nat := be32 b0 b1 b2 b3

/-- The fields `MovieHeaderBox.parse` actually assigns (mvhd). -/
structure MovieHeaderP where
  version : Nat
  timescale : Nat
  duration : Nat
  rate : Nat
  volume : Nat
  deriving DecidableEq

/-- Embedding of Go `MovieHeaderBox.parse`: `Version = data[0]`,
`Timescale = Uint32(data[12:16])`, `Duration = Uint32(data[16:20])`,
`Rate = fixed32(data[20:24])`, `Volume = fixed16(data[24:26])`. -/
def movieHeaderParse (src : Int → Nat) (b : Box) : MovieHeaderP :=
  { version := payload src b 0
    timescale := be32 (payload src b 12) (payload src b 13) (payload src b 14) (payload src b 15)
    duration := be32 (payload src b 16) (payload src b 17) (payload src b 18) (payload src b 19)
    rate := fixed32 (payload src b 20) (payload src b 21) (payload src b 22) (payload src b 23)
    volume := fixed16 (payload src b 24) (payload src b 25) }

/-- The fields `TrackHeaderBox.parse` actually assigns (tkhd). -/
structure TrackHeaderP where
  version : Nat
  flags : List Nat
  creationTime : Nat
  modificationTime : Nat
  trackID : Nat
  reserved : Nat
  duration : Nat
  layer : Nat
  alternateGroup : Nat
  volume : Nat
  width : Nat
  height : Nat
  deriving DecidableEq

/-- Embedding of Go `TrackHeaderBox.parse`.  Note that `Width` and `Height`
are assigned `fixed16(data[76:80])` and `fixed16(data[80:84])`: although the
slices are 4 bytes wide, `fixed16` applies `binary.BigEndian.Uint16`, which
reads only the first two bytes — payload indices 76–77 and 80–81. -/
def trackHeaderParse (src : Int → Nat) (b : Box) : TrackHeaderP :=
  { version := payload src b 0
    flags := [payload src b 1, payload src b 2, payload src b 3]
    creationTime := be32 (payload src b 4) (payload src b 5) (payload src b 6) (payload src b 7)
    modificationTime := be32 (payload src b 8) (payload src b 9) (payload src b 10) (payload src b 11)
    trackID := be32 (payload src b 12) (payload src b 13) (payload src b 14) (payload src b 15)
    reserved := be32 (payload src b 16) (payload src b 17) (payload src b 18) (payload src b 19)
    duration := be32 (payload src b 20) (payload src b 21) (payload src b 22) (payload src b 23)
    layer := payload src b 32 * 256 + payload src b 33
    alternateGroup := payload src b 34 * 256 + payload src b 35
    volume := fixed16 (payload src b 36) (payload src b 37)
    width := fixed16 (payload src b 76) (payload src b 77)
    height := fixed16 (payload src b 80) (payload src b 81) }

/-- The fields `SampleSizeBox.parse` actually assigns (stsz).  The per-sample
size entries of the table are only printed (or commented out) in the Go loop
and are retained nowhere. -/
structure SampleSizeP where
  version : Nat
  flags : List Nat
  sampleSize : Nat
  sampleCount : Nat
  deriving DecidableEq

/-- Embedding of Go `SampleSizeBox.parse`: `Version = data[0]`, `Flags`,
`SampleSize = Uint32(data[4:8])`, `SampleCount = Uint32(data[8:12])`. -/
def sampleSizeParse (src : Int → Nat) (b : Box) : SampleSizeP :=
  { version := payload src b 0
    flags := [payload src b 1, payload src b 2, payload src b 3]
    sampleSize := be32 (payload src b 4) (payload src b 5) (payload src b 6) (payload src b 7)
    sampleCount := be32 (payload src b 8) (payload src b 9) (payload src b 10) (payload src b 11) }

/-- The fields `SampleToChunkBox.parse` actually assigns (stsc): the
`{firstChunk, samplesPerChunk, sampleDescriptionIndex}` entries are never
stored. -/
structure SampleToChunkP where
  version : Nat
  flags : List Nat
  entryCount : Nat
  deriving DecidableEq

/-- Embedding of Go `SampleToChunkBox.parse`. -/
def sampleToChunkParse (src : Int → Nat) (b : Box) : SampleToChunkP :=
  { version := payload src b 0
    flags := [payload src b 1, payload src b 2, payload src b 3]
    entryCount := be32 (payload src b 4) (payload src b 5) (payload src b 6) (payload src b 7) }

/-- The fields `ChunkOffsetBox.parse` actually assigns (stco): the per-chunk
offsets are never stored. -/
structure ChunkOffsetP where
  version : Nat
  flags : List Nat
  entryCount : Nat
  deriving DecidableEq

/-- Embedding of Go `ChunkOffsetBox.parse`. -/
def chunkOffsetParse (src : Int → Nat) (b : Box) : ChunkOffsetP :=
  { version := payload src b 0
    flags := [payload src b 1, payload src b 2, payload src b 3]
    entryCount := be32 (payload src b 4) (payload src b 5) (payload src b 6) (payload src b 7) }

/-- Embedding of Go `extractVideoChunks(mp4)`:
`chunks := bytes.NewBuffer([]byte{0, 0, 0, 1}); chunks.Write(mp4.Mdat.Data[4:])`
— one start code followed by the whole `mdat` payload minus its first four
bytes (the Go slice requires the payload to hold at least 4 bytes). -/
def extractVideoChunks (mdatData : List Nat) : List Nat :=
  [0, 0, 0, 1] ++ mdatData.drop 4

/-- C1 (code evaluation): the sample-table builder of the claim does not
exist.  On the claim's own tables — stsz with default size 0 and per-sample
sizes [10, 20, 30], stsc with entries {1,2,1} and {2,1,1}, stco with offsets
[1000, 1030] — the decoders retain only the scalar header fields (default
size 0 and count 3; entry counts 2), discarding every table entry, and the
extractor output is the fixed rewrite `00 00 00 01 ++ mdat[4:]`, computed
without consulting any of the three tables. -/
theorem sampleTable_builder_absent_eval :
    sampleSizeParse
        (byteAt [0, 0, 0, 32, 115, 116, 115, 122,
                 0, 0, 0, 0, 0, 0, 0, 0, 0, 0, 0, 3,
                 0, 0, 0, 10, 0, 0, 0, 20, 0, 0, 0, 30])
        ⟨tagStsz, 32, 0⟩ = ⟨0, [0, 0, 0], 0, 3⟩ ∧
      sampleToChunkParse
          (byteAt [0, 0, 0, 40, 115, 116, 115, 99,
                   0, 0, 0, 0, 0, 0, 0, 2,
                   0, 0, 0, 1, 0, 0, 0, 2, 0, 0, 0, 1,
                   0, 0, 0, 2, 0, 0, 0, 1, 0, 0, 0, 1])
          ⟨tagStsc, 40, 0⟩ = ⟨0, [0, 0, 0], 2⟩ ∧
      chunkOffsetParse
          (byteAt [0, 0, 0, 24, 115, 116, 99, 111,
                   0, 0, 0, 0, 0, 0, 0, 2,
                   0, 0, 3, 232, 0, 0, 4, 6])
          ⟨tagStco, 24, 0⟩ = ⟨0, [0, 0, 0], 2⟩ ∧
      extractVideoChunks [9, 9, 9, 9, 1, 2, 3] = [0, 0, 0, 1, 1, 2, 3] := by
  decide

/-- C2 (code evaluation): the extractor does not walk the length-prefixed
NAL units of a sample.  For a payload holding two units of 2 and 3 bytes,
each preceded by a 4-byte big-endian length, it emits one start code and
copies the rest verbatim: the second unit's length prefix `00 00 00 03`
survives in the output instead of being rewritten to `00 00 00 01`. -/
theorem extractor_keeps_inner_length_prefix_eval :
    extractVideoChunks [0, 0, 0, 2, 10, 11, 0, 0, 0, 3, 12, 13, 14] =
        [0, 0, 0, 1, 10, 11, 0, 0, 0, 3, 12, 13, 14] ∧
      [0, 0, 0, 1, 10, 11, 0, 0, 0, 3, 12, 13, 14] ≠
        [0, 0, 0, 1, 10, 11, 0, 0, 0, 1, 12, 13, 14] := by
  decide

/-- C6 (code evaluation): the track header's 16.16 width is truncated to its
integer part at decode time.  With a width field of `01 00 80 00`
(the rational 256.5), the decoded value is the 16-bit integer 256, and it is
unchanged when the fractional bytes are zeroed (`01 00 00 00`, the rational
256.0) — the fraction is never read.  By contrast the movie header's 16.16
rate keeps all 32 bits (`00 01 80 00` decodes to the full 98304 = 1.5) and
its 8.8 volume keeps both bytes. -/
theorem fixed_point_width_truncated_eval :
    (trackHeaderParse
        (fun i => if i = 84 then 1 else if i = 86 then 128 else 0)
        ⟨[116, 107, 104, 100], 92, 0⟩).width = 256 ∧
      (trackHeaderParse
          (fun i => if i = 84 then 1 else 0)
          ⟨[116, 107, 104, 100], 92, 0⟩).width = 256 ∧
      256 * 65536 ≠ be32 1 0 128 0 ∧
      (movieHeaderParse
          (fun i => if i = 29 then 1 else if i = 30 then 128 else if i = 32 then 1 else 0)
          ⟨tagMvhd, 108, 0⟩).rate = 98304 ∧
      (movieHeaderParse
          (fun i => if i = 29 then 1 else if i = 30 then 128 else if i = 32 then 1 else 0)
          ⟨tagMvhd, 108, 0⟩).volume = 256 := by
  decide

/-- The children of a container box: Go
`readBoxes(b.Reader, b.Start+BoxHeaderSize, b.Size-BoxHeaderSize)`. -/
def boxChildren (src : Int → Nat) (fuel : Nat) (b : Box) : Option (List Box) :=
  readBoxes src (b.start + 8) (b.size - 8) fuel

/-- The last box of a list carrying a given tag — the value left in a parse
field after a Go loop that overwrites the field on every matching child. -/
def lastNamed (t : List Nat) (l : List Box) : Option Box :=
  l.foldl (fun acc b => if b.name = t then some b else acc) none

/-- Embedding of Go `HandlerBox.parse`'s `TypeName = string(data[8:12])`:
the four bytes at payload indices 8–11 of the hdlr box. -/
def hdlrTypeName (src : Int → Nat) (b : Box) : List Nat :=
  [payload src b 8, payload src b 9, payload src b 10, payload src b 11]

/-- Embedding of Go `SampleTableBox.parse` (stbl): it scans its children and
runs the stsz/stsc/stco leaf decoders, which always complete; the only way it
can fail to return is the child scan itself not terminating. -/
def sampleTableParse (src : Int → Nat) (fuel : Nat) (b : Box) : Option Unit :=
  (boxChildren src fuel b).map (fun _ => ())

/-- Loop of Go `MediaInformationBox.parse` (minf): vmhd/smhd/hmhd parses are
no-ops; each stbl child is parsed recursively. -/
def minfChildLoop (src : Int → Nat) (fuel : Nat) : List Box → Option Unit
  | [] => some ()
  | c :: rest =>
    if c.name = tagStbl then
      match sampleTableParse src fuel c with
      | none => none
      | some _ => minfChildLoop src fuel rest
    else minfChildLoop src fuel rest

/-- Embedding of Go `MediaInformationBox.parse`. -/
def mediaInfoParse (src : Int → Nat) (fuel : Nat) (b : Box) : Option Unit :=
  (boxChildren src fuel b).bind (fun l => minfChildLoop src fuel l)

/-- The field of Go `MediaBox` relevant to track selection: `Hdlr`. -/
structure MediaP where
  hdlr : Option Box
  deriving DecidableEq

/-- Loop of Go `MediaBox.parse` (mdia): `Hdlr` is overwritten on each hdlr
child (its leaf parse always completes); each minf child is parsed
recursively; mdhd is a leaf. -/
def mediaChildLoop (src : Int → Nat) (fuel : Nat) : List Box → MediaP → Option MediaP
  | [], st => some st
  | c :: rest, st =>
    if c.name = tagHdlr then mediaChildLoop src fuel rest ⟨some c⟩
    else if c.name = tagMinf then
      match mediaInfoParse src fuel c with
      | none => none
      | some _ => mediaChildLoop src fuel rest st
    else mediaChildLoop src fuel rest st

/-- Embedding of Go `MediaBox.parse`. -/
def mediaBoxParse (src : Int → Nat) (fuel : Nat) (b : Box) : Option MediaP :=
  (boxChildren src fuel b).bind (fun l => mediaChildLoop src fuel l ⟨none⟩)

/-- The field of Go `TrackBox` relevant to track selection: `Mdia`. -/
structure TrackP where
  mdia : Option MediaP
  deriving DecidableEq

/-- Loop of Go `TrackBox.parse` (trak): `Mdia` is overwritten on each mdia
child; tkhd is a leaf. -/
def trackChildLoop (src : Int → Nat) (fuel : Nat) : List Box → TrackP → Option TrackP
  | [], st => some st
  | c :: rest, st =>
    if c.name = tagMdia then
      match mediaBoxParse src fuel c with
      | none => none
      | some mp => trackChildLoop src fuel rest ⟨some mp⟩
    else trackChildLoop src fuel rest st

/-- Embedding of Go `TrackBox.parse` / `parseTrack`. -/
def trackBoxParse (src : Int → Nat) (fuel : Nat) (b : Box) : Option TrackP :=
  (boxChildren src fuel b).bind (fun l => trackChildLoop src fuel l ⟨none⟩)

/-- The handler type name consulted by Go
`parseTrack(box).Mdia.Hdlr.TypeName`: `none` models a parse that does not
complete normally (a non-terminating child scan, or the nil-pointer fault Go
takes when the track has no mdia child or the mdia has no hdlr child). -/
def trackTypeName (src : Int → Nat) (fuel : Nat) (b : Box) : Option (List Nat) :=
  (trackBoxParse src fuel b).bind (fun tp =>
    tp.mdia.bind (fun mp =>
      mp.hdlr.map (fun h => hdlrTypeName src h)))

/-- Whether a moov child is a trak box whose handler type decodes to "vide"
(the condition under which Go `MovieBox.parse` assigns `b.Trak`). -/
def isVideTrak (src : Int → Nat) (fuel : Nat) (b : Box) : Bool :=
  b.name = tagTrak ∧ trackTypeName src fuel b = some tagVide

/-- The fields Go `MovieBox.parse` assigns: `Mvhd` and `Trak`. -/
structure MovieP where
  mvhd : Option Box
  trak : Option Box
  deriving DecidableEq

/-- Loop of Go `MovieBox.parse` (moov), variant with the vide check:
`case "mvhd"` overwrites `Mvhd` (its leaf parse always completes);
`case "trak"` runs `parseTrack(box)` and assigns `Trak` exactly when
`trak.Mdia.Hdlr.TypeName == "vide"`, overwriting any earlier assignment. -/
def movieChildLoop (src : Int → Nat) (fuel : Nat) : List Box → MovieP → Option MovieP
  | [], st => some st
  | c :: rest, st =>
    if c.name = tagMvhd then movieChildLoop src fuel rest ⟨some c, st.trak⟩
    else if c.name = tagTrak then
      match trackTypeName src fuel c with
      | none => none
      | some t =>
        movieChildLoop src fuel rest
          (if t = tagVide then ⟨st.mvhd, some c⟩ else st)
    else movieChildLoop src fuel rest st

/-- Embedding of Go `MovieBox.parse`. -/
def movieBoxParse (src : Int → Nat) (fuel : Nat) (b : Box) : Option MovieP :=
  (boxChildren src fuel b).bind (fun l => movieChildLoop src fuel l ⟨none, none⟩)

/-- Byte image of an 80-byte moov box holding two complete trak boxes, each
with an mdia and an hdlr child; both handler types read "vide".  The first
trak starts at offset 8, the second at offset 44. -/
def twoVideBytes : List Nat :=
  [0, 0, 0, 80, 109, 111, 111, 118,
   0, 0, 0, 36, 116, 114, 97, 107,
   0, 0, 0, 28, 109, 100, 105, 97,
   0, 0, 0, 20, 104, 100, 108, 114,
   0, 0, 0, 0, 0, 0, 0, 0, 118, 105, 100, 101,
   0, 0, 0, 36, 116, 114, 97, 107,
   0, 0, 0, 28, 109, 100, 105, 97,
   0, 0, 0, 20, 104, 100, 108, 114,
   0, 0, 0, 0, 0, 0, 0, 0, 118, 105, 100, 101]

/-- C5 counterexample: on a moov holding two video tracks (both handler types
"vide", traversal order: trak at offset 8, then trak at offset 44), the
parser selects the SECOND trak, not the first: the claim that the first video
track is selected and every later one ignored fails at this input. -/
theorem movieBox_first_vide_counterexample :
    movieBoxParse (byteAt twoVideBytes) 10 ⟨tagMoov, 80, 0⟩ =
        some ⟨none, some ⟨tagTrak, 36, 44⟩⟩ ∧
      ¬ movieBoxParse (byteAt twoVideBytes) 10 ⟨tagMoov, 80, 0⟩ =
          some ⟨none, some ⟨tagTrak, 36, 8⟩⟩ := by
  decide

theorem movieChildLoop_trak_last (src : Int → Nat) (fuel : Nat) :
    ∀ (l : List Box) (st st' : MovieP),
      movieChildLoop src fuel l st = some st' →
      st'.trak =
        ((l.reverse.find? (isVideTrak src fuel)).map some).getD st.trak := by
  intro l
  induction l with
  | nil =>
    intro st st' h
    simp only [movieChildLoop] at h
    cases h
    simp
  | cons c rest ih =>
    intro st st' h
    simp only [movieChildLoop] at h
    simp only [List.reverse_cons, List.find?_append, List.find?_singleton]
    by_cases hmv : c.name = tagMvhd
    · rw [if_pos hmv] at h
      have hp : isVideTrak src fuel c = false := by
        have hne : ¬ c.name = tagTrak := by rw [hmv]; decide
        simp [isVideTrak, hne]
      have hrec := ih _ _ h
      simp only [hp, if_neg (by simp : ¬ (false = true)), Option.or_none]
      exact hrec
    · rw [if_neg hmv] at h
      by_cases htr : c.name = tagTrak
      · rw [if_pos htr] at h
        cases htn : trackTypeName src fuel c with
        | none => rw [htn] at h; exact absurd h (by simp)
        | some t =>
          simp only [htn] at h
          by_cases hv : t = tagVide
          · rw [if_pos hv] at h
            have hp : isVideTrak src fuel c = true := by
              simp [isVideTrak, htr, htn, hv]
            have hrec := ih _ _ h
            simp only [hp, if_pos rfl] at *
            cases hf : rest.reverse.find? (isVideTrak src fuel) with
            | none => rw [hf] at hrec; simpa using hrec
            | some d => rw [hf] at hrec; simpa using hrec
          · rw [if_neg hv] at h
            have hp : isVideTrak src fuel c = false := by
              simp [isVideTrak, htn, hv]
            have hrec := ih _ _ h
            simp only [hp, if_neg (by simp : ¬ (false = true)), Option.or_none]
            exact hrec
      · rw [if_neg htr] at h
        have hp : isVideTrak src fuel c = false := by
          simp [isVideTrak, htr]
        have hrec := ih _ _ h
        simp only [hp, if_neg (by simp : ¬ (false = true)), Option.or_none]
        exact hrec

/-- C5 (amended): the track `MovieBox.parse` leaves in `Trak` is the LAST
trak child, in traversal order, whose handler type equals "vide" (each later
video track overwrites the earlier selection); non-vide tracks, such as a
"soun" track preceding the video track, are parsed and skipped without
error.  Stated over any completed parse: the selected track is the last
child satisfying `isVideTrak`, or none when no video track exists. -/
theorem movieBox_selects_last_vide (src : Int → Nat) (fuel : Nat) (moov : Box)
    (l : List Box) (mp : MovieP)
    (h1 : boxChildren src fuel moov = some l)
    (h2 : movieBoxParse src fuel moov = some mp) :
    mp.trak = ((l.reverse.find? (isVideTrak src fuel)).map some).getD none := by
  have hloop : movieChildLoop src fuel l ⟨none, none⟩ = some mp := by
    simpa [movieBoxParse, h1] using h2
  simpa using movieChildLoop_trak_last src fuel l ⟨none, none⟩ mp hloop

/-- Witness for the amended C5 at the two-video-track input: the parse
selects the trak at offset 44, which is indeed the last vide trak of the
child list. -/
theorem movieBox_selects_last_vide_witness :
    (⟨none, some ⟨tagTrak, 36, 44⟩⟩ : MovieP).trak =
      ((([⟨tagTrak, 36, 8⟩, ⟨tagTrak, 36, 44⟩] : List Box).reverse.find?
          (isVideTrak (byteAt twoVideBytes) 10)).map some).getD none :=
  movieBox_selects_last_vide (byteAt twoVideBytes) 10 ⟨tagMoov, 80, 0⟩
    [⟨tagTrak, 36, 8⟩, ⟨tagTrak, 36, 44⟩] ⟨none, some ⟨tagTrak, 36, 44⟩⟩
    (by decide) (by decide)

/-- C7 (code evaluation): a moov with no mvhd child parses "successfully".
On a 24-byte moov whose only child is a 16-byte `free` box, `MovieBox.parse`
returns normally with `Mvhd` left nil — there is no `MissingRequiredBox`
error (or any error value) anywhere in the code, and the partially built
tree is handed to the caller, which later dereferences the nil `Mvhd`. -/
theorem moov_missing_mvhd_no_error_eval :
    movieBoxParse
        (byteAt [0, 0, 0, 24, 109, 111, 111, 118,
                 0, 0, 0, 16, 102, 114, 101, 101,
                 0, 0, 0, 0, 0, 0, 0, 0])
        10 ⟨tagMoov, 24, 0⟩ = some ⟨none, none⟩ := by
  decide
